import Mathlib

/-!
Verification of the two line-oriented text filters of the fwprofile
utility scripts:

* `UpdateCopyrightNotice.py` — replaces the copyright-notice block of a
  source file (opened by a line containing `@copyright` and closed by a
  line containing `*/`) with the contents of a licence file.
* `scripts/RemoveTripleBlankCommentLines.py` — collapses three consecutive
  blank comment lines (each exactly `" *\n"`) into one, using a three-line
  sliding window and a skip countdown.

Both scripts stream an input file line by line and write to a temporary
file `temp.txt`, which is then moved over the original by an `os.system`
call.  Lines are modelled as `List Char` (a Python line as yielded by file
iteration, newline included; such a line is never the empty string).
A file is a `List Line` and writing a line appends its characters to the
output file, so writing the empty string contributes nothing (`emit`).
-/

namespace FwProfileScripts

/-- A text line, modelled as its character content (newline included). -/
abbrev Line : Type := List Char

/-- Python's substring test `sub in s`, on lines modelled as char lists. -/
def hasSub (sub s : Line) : Bool := s.tails.any (fun t => sub.isPrefixOf t)

/-- The marker substring `'@copyright'` from `UpdateCopyrightNotice.py`. -/
def copyrightMarker : Line := "@copyright".toList

/-- The closing substring `'*/'` from `UpdateCopyrightNotice.py`. -/
def closingToken : Line := "*/".toList

/-- The loop body of `removeCopyrightNotice` (UpdateCopyrightNotice.py,
lines 30-41).  State: `skipLine` (0 or 1) and `licenceFile`, the not yet
consumed part of the licence-file iterator (the Python inner `for` loop
exhausts the iterator, so after the first `@copyright` line it is empty).
Per input line the Python code does, in order:
1. `if skipLine == 0: outFile.write(line)`
2. `if '@copyright' in line: skipLine = 1; write the rest of licenceFile`
3. `if skipLine == 1 and '*/' in line: outFile.write(line); skipLine = 0`
The nested conditionals below flatten exactly this sequence. -/
def rcnLoop (skipLine : Nat) (licenceFile : List Line) : List Line → List Line
  | [] => []
  | line :: rest =>
    (if skipLine = 0 then [line] else []) ++
      (if hasSub copyrightMarker line then
          licenceFile ++
            (if hasSub closingToken line then
                line :: rcnLoop 0 [] rest
              else
                rcnLoop 1 [] rest)
        else
          (if skipLine = 1 ∧ hasSub closingToken line then
              line :: rcnLoop 0 licenceFile rest
            else
              rcnLoop skipLine licenceFile rest))

/-- `removeCopyrightNotice` of `UpdateCopyrightNotice.py`: the output-file
content produced from the input-file lines `inFile` and the licence-file
lines `licenceFile` (initial state `skipLine = 0`, licence unconsumed). -/
def removeCopyrightNotice (inFile : List Line) (licenceFile : List Line) : List Line :=
  rcnLoop 0 licenceFile inFile

/-! ### Basic lemmas about `rcnLoop` -/

/-- With `skipLine = 0`, lines without the marker pass through unchanged. -/
theorem rcnLoop_pass (xs : List Line) (lic rest : List Line)
    (h : ∀ l ∈ xs, hasSub copyrightMarker l = false) :
    rcnLoop 0 lic (xs ++ rest) = xs ++ rcnLoop 0 lic rest := by
  induction xs with
  | nil => rfl
  | cons x xs ih =>
    have hx := h x (List.mem_cons_self x xs)
    have hxs : ∀ l ∈ xs, hasSub copyrightMarker l = false :=
      fun l hl => h l (List.mem_cons_of_mem x hl)
    simp [rcnLoop, hx, ih hxs]

/-- With `skipLine = 1`, lines without marker and closing token are dropped. -/
theorem rcnLoop_drop (xs : List Line) (lic rest : List Line)
    (h : ∀ l ∈ xs, hasSub copyrightMarker l = false ∧ hasSub closingToken l = false) :
    rcnLoop 1 lic (xs ++ rest) = rcnLoop 1 lic rest := by
  induction xs with
  | nil => rfl
  | cons x xs ih =>
    have hx := h x (List.mem_cons_self x xs)
    have hxs : ∀ l ∈ xs, hasSub copyrightMarker l = false ∧ hasSub closingToken l = false :=
      fun l hl => h l (List.mem_cons_of_mem x hl)
    simp [rcnLoop, hx.1, hx.2, ih hxs]

/-- With `skipLine = 1` and an exhausted licence iterator, if no later line
contains the closing token then nothing further is written. -/
theorem rcnLoop_dropAll (xs : List Line)
    (h : ∀ l ∈ xs, hasSub closingToken l = false) :
    rcnLoop 1 [] xs = [] := by
  induction xs with
  | nil => rfl
  | cons x xs ih =>
    have hx := h x (List.mem_cons_self x xs)
    have hxs : ∀ l ∈ xs, hasSub closingToken l = false :=
      fun l hl => h l (List.mem_cons_of_mem x hl)
    by_cases hm : hasSub copyrightMarker x = true
    · simp [rcnLoop, hm, hx, ih hxs]
    · simp at hm
      simp [rcnLoop, hm, hx, ih hxs]

/-- Marker step: at `skipLine = 0`, a line containing `@copyright` but not
`*/` is written, followed by the remaining licence lines; the loop then
continues with `skipLine = 1` and an exhausted licence iterator. -/
theorem rcnLoop_marker (line : Line) (lic rest : List Line)
    (hm : hasSub copyrightMarker line = true)
    (hc : hasSub closingToken line = false) :
    rcnLoop 0 lic (line :: rest) = line :: lic ++ rcnLoop 1 [] rest := by
  simp [rcnLoop, hm, hc]

/-- Closing step: at `skipLine = 1`, a line containing `*/` is written and
the skip flag is cleared in the same step. -/
theorem rcnLoop_close (line : Line) (lic rest : List Line)
    (hc : hasSub closingToken line = true) :
    rcnLoop 1 lic (line :: rest) =
      (if hasSub copyrightMarker line then lic else []) ++
        line :: rcnLoop 0 (if hasSub copyrightMarker line then [] else lic) rest := by
  by_cases hm : hasSub copyrightMarker line = true
  · simp [rcnLoop, hm, hc]
  · simp at hm
    simp [rcnLoop, hm, hc]

/-- Once the licence iterator is exhausted, every line the loop writes is a
line of its input: no licence-payload line can be inserted any more. -/
theorem rcnLoop_mem (xs : List Line) : ∀ (s : Nat), ∀ l ∈ rcnLoop s [] xs, l ∈ xs := by
  induction xs with
  | nil => intro s l hl; simp [rcnLoop] at hl
  | cons x xs ih =>
    intro s l hl
    simp only [rcnLoop] at hl
    rcases List.mem_append.1 hl with h1 | h2
    · split at h1 <;> simp at h1
      exact h1 ▸ List.mem_cons_self x xs
    · split at h2
      · simp only [List.nil_append] at h2
        split at h2
        · rcases List.mem_cons.1 h2 with h3 | h3
          · exact h3 ▸ List.mem_cons_self x xs
          · exact List.mem_cons_of_mem x (ih 0 l h3)
        · exact List.mem_cons_of_mem x (ih 1 l h2)
      · split at h2
        · rcases List.mem_cons.1 h2 with h3 | h3
          · exact h3 ▸ List.mem_cons_self x xs
          · exact List.mem_cons_of_mem x (ih 0 l h3)
        · exact List.mem_cons_of_mem x (ih s l h2)

/-! ### Claims about the Notice Replacer -/

/-- C1.  Notice replacement round-trip: for a target file made of a
marker-free prefix, one line containing `@copyright` but not `*/`, a body
of lines containing neither `@copyright` nor `*/`, one line containing
`*/`, and a marker-free tail, `removeCopyrightNotice` outputs the prefix,
the marker line once, the licence payload in order, the closing line, and
the tail — and none of the old body lines. -/
theorem c1_notice_roundtrip (pre body tail : List Line) (marker closeLine : Line)
    (lic : List Line)
    (hpre : ∀ l ∈ pre, hasSub copyrightMarker l = false)
    (hm : hasSub copyrightMarker marker = true)
    (hmc : hasSub closingToken marker = false)
    (hbody : ∀ l ∈ body, hasSub copyrightMarker l = false ∧ hasSub closingToken l = false)
    (hcl : hasSub closingToken closeLine = true)
    (htail : ∀ l ∈ tail, hasSub copyrightMarker l = false) :
    removeCopyrightNotice (pre ++ marker :: (body ++ closeLine :: tail)) lic
      = pre ++ marker :: (lic ++ closeLine :: tail) := by
  unfold removeCopyrightNotice
  rw [rcnLoop_pass _ _ _ hpre, rcnLoop_marker _ _ _ hm hmc,
    rcnLoop_drop _ _ _ hbody, rcnLoop_close _ _ _ hcl]
  have htl : rcnLoop 0 [] tail = tail := by
    simpa [rcnLoop] using rcnLoop_pass tail [] [] htail
  simp [htl]

/-- C1 witness: a concrete round trip. -/
theorem c1_notice_roundtrip_witness :
    (∀ l ∈ ["hdr\n".toList], hasSub copyrightMarker l = false)
    ∧ hasSub copyrightMarker ("/* @copyright x\n".toList) = true
    ∧ hasSub closingToken ("/* @copyright x\n".toList) = false
    ∧ (∀ l ∈ ["old1\n".toList, "old2\n".toList],
        hasSub copyrightMarker l = false ∧ hasSub closingToken l = false)
    ∧ hasSub closingToken (" */\n".toList) = true
    ∧ (∀ l ∈ ["tail\n".toList], hasSub copyrightMarker l = false)
    ∧ removeCopyrightNotice
        (["hdr\n".toList] ++ ("/* @copyright x\n".toList) ::
          (["old1\n".toList, "old2\n".toList] ++ (" */\n".toList) :: ["tail\n".toList]))
        ["L1\n".toList, "L2\n".toList]
      = ["hdr\n".toList] ++ ("/* @copyright x\n".toList) ::
          (["L1\n".toList, "L2\n".toList] ++ (" */\n".toList) :: ["tail\n".toList]) :=
  ⟨by decide, by decide, by decide, by decide, by decide, by decide,
    c1_notice_roundtrip ["hdr\n".toList] ["old1\n".toList, "old2\n".toList]
      ["tail\n".toList] ("/* @copyright x\n".toList) (" */\n".toList)
      ["L1\n".toList, "L2\n".toList]
      (by decide) (by decide) (by decide) (by decide) (by decide) (by decide)⟩

/-- C4 counterexample: on the one-line file `"@copyright */\n"` the marker
line is written twice (before the payload by step 1, and again by step 3,
because the same line also contains `*/`), so it is not "written to the
output exactly once, immediately followed by the license payload". -/
theorem c4_counterexample :
    removeCopyrightNotice ["@copyright */\n".toList] ["LIC\n".toList]
      = ["@copyright */\n".toList, "LIC\n".toList, "@copyright */\n".toList]
    ∧ removeCopyrightNotice ["@copyright */\n".toList] ["LIC\n".toList]
      ≠ ["@copyright */\n".toList, "LIC\n".toList] := by
  constructor
  · decide
  · decide

/-- C4 (amended).  Provided the first line containing `@copyright` does not
itself contain `*/`, it is written exactly once, immediately followed by
the whole licence payload in file order, and the loop continues with the
skip flag set and the licence iterator exhausted; moreover a line
containing `*/` reached while the skip flag is set is itself written and
clears the flag in the same step. -/
theorem c4_marker_line_amended (pre rest : List Line) (marker : Line) (lic : List Line)
    (hpre : ∀ l ∈ pre, hasSub copyrightMarker l = false)
    (hm : hasSub copyrightMarker marker = true)
    (hmc : hasSub closingToken marker = false) :
    removeCopyrightNotice (pre ++ marker :: rest) lic
      = pre ++ marker :: (lic ++ rcnLoop 1 [] rest)
    ∧ ∀ (lic' : List Line) (line : Line) (rest' : List Line),
        hasSub closingToken line = true →
        rcnLoop 1 lic' (line :: rest') =
          (if hasSub copyrightMarker line then lic' else []) ++
            line :: rcnLoop 0 (if hasSub copyrightMarker line then [] else lic') rest' := by
  constructor
  · unfold removeCopyrightNotice
    rw [rcnLoop_pass _ _ _ hpre, rcnLoop_marker _ _ _ hm hmc]
    simp
  · exact fun lic' line rest' hc => rcnLoop_close line lic' rest' hc

/-- C4 witness: a concrete marker line without `*/`. -/
theorem c4_marker_line_witness :
    (∀ l ∈ ["a\n".toList], hasSub copyrightMarker l = false)
    ∧ hasSub copyrightMarker ("x @copyright\n".toList) = true
    ∧ hasSub closingToken ("x @copyright\n".toList) = false
    ∧ removeCopyrightNotice
        (["a\n".toList] ++ ("x @copyright\n".toList) :: ["b\n".toList, "c */\n".toList])
        ["L\n".toList]
      = ["a\n".toList] ++ ("x @copyright\n".toList) ::
          (["L\n".toList] ++ rcnLoop 1 [] ["b\n".toList, "c */\n".toList]) :=
  ⟨by decide, by decide, by decide,
    (c4_marker_line_amended ["a\n".toList] ["b\n".toList, "c */\n".toList]
      ("x @copyright\n".toList) ["L\n".toList]
      (by decide) (by decide) (by decide)).1⟩

/-- C5.  Unterminated block: when the first `@copyright` line and every
later line lack `*/`, the output is exactly the lines up to and including
the marker line followed by the licence payload — everything after the
marker is silently dropped (the function is total, so no error occurs). -/
theorem c5_unterminated_block (pre rest : List Line) (marker : Line) (lic : List Line)
    (hpre : ∀ l ∈ pre, hasSub copyrightMarker l = false)
    (hm : hasSub copyrightMarker marker = true)
    (hmc : hasSub closingToken marker = false)
    (hrest : ∀ l ∈ rest, hasSub closingToken l = false) :
    removeCopyrightNotice (pre ++ marker :: rest) lic = pre ++ marker :: lic := by
  unfold removeCopyrightNotice
  rw [rcnLoop_pass _ _ _ hpre, rcnLoop_marker _ _ _ hm hmc, rcnLoop_dropAll _ hrest]
  simp

/-- C5 witness: a concrete unterminated file. -/
theorem c5_unterminated_block_witness :
    (∀ l ∈ ["a\n".toList], hasSub copyrightMarker l = false)
    ∧ hasSub copyrightMarker ("x @copyright\n".toList) = true
    ∧ hasSub closingToken ("x @copyright\n".toList) = false
    ∧ (∀ l ∈ ["b\n".toList, "c\n".toList], hasSub closingToken l = false)
    ∧ removeCopyrightNotice
        (["a\n".toList] ++ ("x @copyright\n".toList) :: ["b\n".toList, "c\n".toList])
        ["L\n".toList]
      = ["a\n".toList] ++ ("x @copyright\n".toList) :: ["L\n".toList] :=
  ⟨by decide, by decide, by decide, by decide,
    c5_unterminated_block ["a\n".toList] ["b\n".toList, "c\n".toList]
      ("x @copyright\n".toList) ["L\n".toList]
      (by decide) (by decide) (by decide) (by decide)⟩

/-- C10.  The licence payload is inserted at most once per run: at the
first `@copyright` line the whole payload is written and the licence
iterator is exhausted, and from then on every line the loop writes is a
line of the remaining input — a later `@copyright` line inserts nothing. -/
theorem c10_payload_once (pre rest : List Line) (marker : Line) (lic : List Line)
    (hpre : ∀ l ∈ pre, hasSub copyrightMarker l = false)
    (hm : hasSub copyrightMarker marker = true) :
    removeCopyrightNotice (pre ++ marker :: rest) lic
      = pre ++ marker ::
          (lic ++ (if hasSub closingToken marker then marker :: rcnLoop 0 [] rest
                    else rcnLoop 1 [] rest))
    ∧ ∀ (s : Nat), ∀ l ∈ rcnLoop s [] rest, l ∈ rest := by
  constructor
  · unfold removeCopyrightNotice
    rw [rcnLoop_pass _ _ _ hpre]
    by_cases hc : hasSub closingToken marker = true
    · simp [rcnLoop, hm, hc]
    · simp at hc
      simp [rcnLoop, hm, hc]
  · exact fun s l hl => rcnLoop_mem rest s l hl

/-- C10 witness: a concrete file with two `@copyright` lines. -/
theorem c10_payload_once_witness :
    (∀ l ∈ ["p\n".toList], hasSub copyrightMarker l = false)
    ∧ hasSub copyrightMarker ("m @copyright\n".toList) = true
    ∧ removeCopyrightNotice
        (["p\n".toList] ++ ("m @copyright\n".toList) ::
          ["b\n".toList, "e */\n".toList, "m2 @copyright\n".toList, "x\n".toList])
        ["L1\n".toList, "L2\n".toList]
      = ["p\n".toList] ++ ("m @copyright\n".toList) ::
          (["L1\n".toList, "L2\n".toList] ++
            (if hasSub closingToken ("m @copyright\n".toList) then
                ("m @copyright\n".toList) ::
                  rcnLoop 0 [] ["b\n".toList, "e */\n".toList, "m2 @copyright\n".toList, "x\n".toList]
              else
                rcnLoop 1 [] ["b\n".toList, "e */\n".toList, "m2 @copyright\n".toList, "x\n".toList])) :=
  ⟨by decide, by decide,
    (c10_payload_once ["p\n".toList]
      ["b\n".toList, "e */\n".toList, "m2 @copyright\n".toList, "x\n".toList]
      ("m @copyright\n".toList) ["L1\n".toList, "L2\n".toList]
      (by decide) (by decide)).1⟩

/-! ### The Triple-Blank Collapser (`scripts/RemoveTripleBlankCommentLines.py`) -/

/-- Writing one line to the output file: writing the empty string (the
initial value of the window slots) appends nothing to the file. -/
def emit (l : Line) : List Line := if l = [] then [] else [l]

/-- The target pattern: a line exactly equal to `" *\n"`. -/
def blankCommentLine : Line := " *\n".toList

/-- The loop of `removeTripleBlankLine` (RemoveTripleBlankCommentLines.py,
lines 31-52).  `line1 line2 line3` is the sliding window before the shift;
on each input line the window shifts (`line1 ← line2`, `line2 ← line3`,
`line3 ← line`), then:
* if the shifted window is three `" *\n"` lines, the oldest slot is
  written and `skipLine` becomes 3, which the trailing
  `if skipLine > 0: skipLine -= 1` immediately lowers to 2;
* otherwise the oldest slot is written only when `skipLine == 0`, and a
  positive `skipLine` is decremented.
After the input is exhausted the two newest slots are flushed. -/
def rtbLoop (skipLine : Nat) (line1 line2 line3 : Line) : List Line → List Line
  | [] => emit line2 ++ emit line3
  | line :: rest =>
    if line2 = blankCommentLine ∧ line3 = blankCommentLine ∧ line = blankCommentLine then
      emit line2 ++ rtbLoop 2 line2 line3 line rest
    else if skipLine = 0 then
      emit line2 ++ rtbLoop 0 line2 line3 line rest
    else
      rtbLoop (skipLine - 1) line2 line3 line rest

/-- `removeTripleBlankLine` of `RemoveTripleBlankCommentLines.py`: the
output-file content produced from the input-file lines (initial state
`skipLine = 0` and an all-empty window). -/
def removeTripleBlankLine (inFile : List Line) : List Line :=
  rtbLoop 0 [] [] [] inFile

/-- Proof-friendly reformulation of `rtbLoop`: the loop, seen as a scan
over the virtual stream `line2 :: line3 :: input` (the unused oldest slot
dropped), writing the head whenever the Python loop would and flushing a
final short stream. -/
def collapseStream (skipLine : Nat) : List Line → List Line
  | a :: b :: c :: rest =>
    if a = blankCommentLine ∧ b = blankCommentLine ∧ c = blankCommentLine then
      emit a ++ collapseStream 2 (b :: c :: rest)
    else if skipLine = 0 then
      emit a ++ collapseStream 0 (b :: c :: rest)
    else
      collapseStream (skipLine - 1) (b :: c :: rest)
  | [a, b] => emit a ++ emit b
  | [a] => emit a
  | [] => []

/-- Decides whether a file contains three consecutive `" *\n"` lines. -/
def hasTriple : List Line → Bool
  | a :: b :: c :: rest =>
    (a == blankCommentLine && b == blankCommentLine && c == blankCommentLine)
      || hasTriple (b :: c :: rest)
  | _ => false

/-- `rtbLoop` is the stream scan of the window tail and the input. -/
theorem rtbLoop_eq_collapseStream (input : List Line) :
    ∀ (skipLine : Nat) (line1 line2 line3 : Line),
      rtbLoop skipLine line1 line2 line3 input
        = collapseStream skipLine (line2 :: line3 :: input) := by
  induction input with
  | nil => intro s l1 l2 l3; simp [rtbLoop, collapseStream]
  | cons x xs ih =>
    intro s l1 l2 l3
    simp only [rtbLoop, collapseStream]
    split_ifs with h1 h2 <;> rw [ih]

/-- A leading empty-string entry of the stream is invisible at skip 0. -/
theorem collapseStream_pad (rest : List Line) :
    collapseStream 0 ([] :: rest) = collapseStream 0 rest := by
  match rest with
  | [] => simp [collapseStream, emit]
  | [y] => simp [collapseStream, emit, blankCommentLine]
  | y :: z :: w =>
    have hb : ([] : Line) ≠ blankCommentLine := by decide
    simp [collapseStream, emit, hb]

/-- The whole collapser is the stream scan of its input. -/
theorem removeTripleBlankLine_eq (input : List Line) :
    removeTripleBlankLine input = collapseStream 0 input := by
  rw [removeTripleBlankLine, rtbLoop_eq_collapseStream, collapseStream_pad,
    collapseStream_pad]

/-- Lines that are neither `" *\n"` nor empty pass through a skip-0 scan
unchanged. -/
theorem collapseStream_pass (xs : List Line)
    (h : ∀ l ∈ xs, l ≠ blankCommentLine ∧ l ≠ []) (rest : List Line) :
    collapseStream 0 (xs ++ rest) = xs ++ collapseStream 0 rest := by
  induction xs with
  | nil => rfl
  | cons x xs ih =>
    have hx := h x (List.mem_cons_self x xs)
    have hxs : ∀ l ∈ xs, l ≠ blankCommentLine ∧ l ≠ [] :=
      fun l hl => h l (List.mem_cons_of_mem x hl)
    match hxr : xs ++ rest with
    | [] =>
      rcases List.append_eq_nil.1 hxr with ⟨h1, h2⟩
      subst h1; subst h2
      simp [collapseStream, emit, hx.2]
    | [y] =>
      rcases xs with _ | ⟨y', xs'⟩
      · simp only [List.nil_append] at hxr
        subst hxr
        simp only [List.cons_append, List.nil_append] at *
        simp [collapseStream, emit, hx.2]
      · simp only [List.cons_append] at hxr
        obtain ⟨rfl, h2⟩ := List.cons.inj hxr
        rcases List.append_eq_nil.1 h2 with ⟨h3, h4⟩
        subst h3; subst h4
        have hy := h y' (List.mem_cons_of_mem x (List.mem_cons_self y' []))
        simp [collapseStream, emit, hx.2, hy.2]
    | y :: z :: w =>
      have : collapseStream 0 (x :: y :: z :: w)
          = emit x ++ collapseStream 0 (y :: z :: w) := by
        simp [collapseStream, hx.1]
      rw [List.cons_append, hxr, this, ← hxr, ih hxs]
      simp [emit, hx.2]

/-- A matched triple at skip 0 writes one `" *\n"` and swallows the other
two, provided the next line is not itself `" *\n"`. -/
theorem collapseStream_triple (s1 : Line) (rest : List Line)
    (hs1 : s1 ≠ blankCommentLine) (s2 : Line) :
    collapseStream 0
        (blankCommentLine :: blankCommentLine :: blankCommentLine :: s1 :: s2 :: rest)
      = blankCommentLine :: collapseStream 0 (s1 :: s2 :: rest) := by
  have h1 : collapseStream 0
      (blankCommentLine :: blankCommentLine :: blankCommentLine :: s1 :: s2 :: rest)
      = emit blankCommentLine ++
          collapseStream 2 (blankCommentLine :: blankCommentLine :: s1 :: s2 :: rest) := by
    simp [collapseStream]
  have h2 : collapseStream 2 (blankCommentLine :: blankCommentLine :: s1 :: s2 :: rest)
      = collapseStream 1 (blankCommentLine :: s1 :: s2 :: rest) := by
    simp [collapseStream, hs1]
  have h3 : collapseStream 1 (blankCommentLine :: s1 :: s2 :: rest)
      = collapseStream 0 (s1 :: s2 :: rest) := by
    simp [collapseStream, hs1]
  rw [h1, h2, h3]
  simp [emit, blankCommentLine]

/-- A member of `emit x` is `x` itself, and then `x` is nonempty. -/
theorem emit_mem {l x : Line} (h : l ∈ emit x) : l = x ∧ x ≠ [] := by
  by_cases hx : x = []
  · simp [emit, hx] at h
  · simp [emit, hx] at h
    exact ⟨h, hx⟩

/-- Every line the scan writes is nonempty (the empty string is filtered
by `emit`). -/
theorem collapseStream_out_ne_nil (stream : List Line) :
    ∀ (s : Nat), ∀ l ∈ collapseStream s stream, l ≠ [] := by
  induction stream with
  | nil => intro s l hl; simp [collapseStream] at hl
  | cons a t ih =>
    intro s l hl
    match t with
    | [] =>
      simp only [collapseStream] at hl
      obtain ⟨h1, h2⟩ := emit_mem hl
      exact h1 ▸ h2
    | [b] =>
      simp only [collapseStream] at hl
      rcases List.mem_append.1 hl with h | h <;>
        · obtain ⟨h1, h2⟩ := emit_mem h
          exact h1 ▸ h2
    | b :: c :: w =>
      simp only [collapseStream] at hl
      split_ifs at hl with h1 h2
      · rcases List.mem_append.1 hl with h3 | h3
        · obtain ⟨h4, h5⟩ := emit_mem h3
          exact h4 ▸ h5
        · exact ih 2 l h3
      · rcases List.mem_append.1 hl with h3 | h3
        · obtain ⟨h4, h5⟩ := emit_mem h3
          exact h4 ▸ h5
        · exact ih 0 l h3
      · exact ih (s - 1) l hl

/-- A stream of nonempty lines with no triple of `" *\n"` lines scans to
itself. -/
theorem collapseStream_id (stream : List Line)
    (ht : hasTriple stream = false) (hne : ∀ l ∈ stream, l ≠ []) :
    collapseStream 0 stream = stream := by
  induction stream with
  | nil => rfl
  | cons a t ih =>
    have ha := hne a (List.mem_cons_self a t)
    have hnet : ∀ l ∈ t, l ≠ [] := fun l hl => hne l (List.mem_cons_of_mem a hl)
    match t with
    | [] => simp [collapseStream, emit, ha]
    | [b] =>
      have hb := hnet b (List.mem_cons_self b [])
      simp [collapseStream, emit, ha, hb]
    | b :: c :: w =>
      simp only [hasTriple, Bool.or_eq_false_iff, Bool.and_eq_false_iff,
        beq_eq_false_iff_ne, ne_eq] at ht
      have htr : ¬(a = blankCommentLine ∧ b = blankCommentLine ∧ c = blankCommentLine) := by
        rcases ht.1 with h | h
        · rcases h with h | h
          · exact fun hc => h hc.1
          · exact fun hc => h hc.2.1
        · exact fun hc => h hc.2.2
      have := ih ht.2 hnet
      simp [collapseStream, htr, emit, ha, this]

/-- At any skip value, the final three-line stream `[" *\n"," *\n"," *\n"]`
scans to itself: the triple branch writes the oldest slot and the final
flush writes the other two. -/
theorem collapseStream_bbb (s : Nat) :
    collapseStream s [blankCommentLine, blankCommentLine, blankCommentLine]
      = [blankCommentLine, blankCommentLine, blankCommentLine] := by
  have hb : blankCommentLine ≠ [] := by decide
  simp [collapseStream, emit, hb]

/-- One-step unfolding of the scan on a stream of length at least 3. -/
theorem collapseStream_cons3 (s : Nat) (a b c : Line) (rest : List Line) :
    collapseStream s (a :: b :: c :: rest)
      = if a = blankCommentLine ∧ b = blankCommentLine ∧ c = blankCommentLine then
          emit a ++ collapseStream 2 (b :: c :: rest)
        else if s = 0 then
          emit a ++ collapseStream 0 (b :: c :: rest)
        else
          collapseStream (s - 1) (b :: c :: rest) := rfl

/-- A stream ending in three `" *\n"` lines scans to an output ending in
those same three lines, whatever came before. -/
theorem collapseStream_ends_bbb (zs : List Line) :
    ∀ (s : Nat), ∃ ys,
      collapseStream s (zs ++ [blankCommentLine, blankCommentLine, blankCommentLine])
        = ys ++ [blankCommentLine, blankCommentLine, blankCommentLine] := by
  induction zs with
  | nil => intro s; exact ⟨[], by simpa using collapseStream_bbb s⟩
  | cons z tl ih =>
    intro s
    rcases tl with _ | ⟨z2, tl2⟩
    · simp only [List.cons_append, List.nil_append]
      rw [collapseStream_cons3]
      split_ifs with h1 h2
      · exact ⟨emit z, by rw [collapseStream_bbb]⟩
      · exact ⟨emit z, by rw [collapseStream_bbb]⟩
      · exact ⟨[], by rw [collapseStream_bbb]; simp⟩
    · rcases hc : tl2 ++ [blankCommentLine, blankCommentLine, blankCommentLine] with
        _ | ⟨c, rest⟩
      · exact absurd hc (by simp)
      · have hstep : ∀ (s' : Nat), ∃ ys,
            collapseStream s' (z2 :: c :: rest)
              = ys ++ [blankCommentLine, blankCommentLine, blankCommentLine] := by
          intro s'
          rw [show z2 :: c :: rest
              = (z2 :: tl2) ++ [blankCommentLine, blankCommentLine, blankCommentLine] by
            simp [hc]]
          exact ih s'
        simp only [List.cons_append, hc]
        rw [collapseStream_cons3]
        split_ifs with h1 h2
        · obtain ⟨ys, hys⟩ := hstep 2
          exact ⟨emit z ++ ys, by rw [hys, List.append_assoc]⟩
        · obtain ⟨ys, hys⟩ := hstep 0
          exact ⟨emit z ++ ys, by rw [hys, List.append_assoc]⟩
        · exact hstep (s - 1)

/-! ### Claims about the Triple-Blank Collapser -/

/-- C2 counterexample: a triple surrounded by one sentinel line on each
side is NOT collapsed to one `" *\n"`: with a single line after the
triple, the end-of-input flush re-emits a second `" *\n"` (the skip
countdown still suppresses loop writes when the input ends). -/
theorem c2_counterexample :
    removeTripleBlankLine
        (("X\n".toList) :: blankCommentLine :: blankCommentLine :: blankCommentLine ::
          [("Y\n".toList)])
      = ("X\n".toList) :: blankCommentLine :: blankCommentLine :: [("Y\n".toList)]
    ∧ ("X\n".toList) :: blankCommentLine :: blankCommentLine :: [("Y\n".toList)]
      ≠ ("X\n".toList) :: blankCommentLine :: [("Y\n".toList)] := by
  constructor
  · decide
  · decide

/-- C2 (amended).  Exact-3 collapse holds when at least two lines follow
the triple: a file made of sentinel lines (nonempty, not `" *\n"`), then
exactly three `" *\n"` lines, then at least two further sentinel lines,
collapses to exactly one `" *\n"`, sentinels unchanged and in order. -/
theorem c2_exact3_collapse_amended (pre after : List Line) (s1 s2 : Line)
    (hpre : ∀ l ∈ pre, l ≠ blankCommentLine ∧ l ≠ [])
    (hs1 : s1 ≠ blankCommentLine ∧ s1 ≠ [])
    (hs2 : s2 ≠ blankCommentLine ∧ s2 ≠ [])
    (hafter : ∀ l ∈ after, l ≠ blankCommentLine ∧ l ≠ []) :
    removeTripleBlankLine
        (pre ++ blankCommentLine :: blankCommentLine :: blankCommentLine ::
          s1 :: s2 :: after)
      = pre ++ blankCommentLine :: s1 :: s2 :: after := by
  rw [removeTripleBlankLine_eq, collapseStream_pass pre hpre,
    collapseStream_triple s1 _ hs1.1 s2]
  have hall : ∀ l ∈ s1 :: s2 :: after, l ≠ blankCommentLine ∧ l ≠ [] := by
    intro l hl
    rcases List.mem_cons.1 hl with rfl | hl
    · exact hs1
    rcases List.mem_cons.1 hl with rfl | hl
    · exact hs2
    · exact hafter l hl
  have h2 : collapseStream 0 (s1 :: s2 :: after) = s1 :: s2 :: after := by
    simpa [collapseStream] using collapseStream_pass (s1 :: s2 :: after) hall []
  rw [h2]

/-- C2 witness: a concrete collapse with two trailing sentinels. -/
theorem c2_exact3_collapse_witness :
    (∀ l ∈ ["A\n".toList], l ≠ blankCommentLine ∧ l ≠ [])
    ∧ (("B\n".toList) ≠ blankCommentLine ∧ ("B\n".toList) ≠ [])
    ∧ (("C\n".toList) ≠ blankCommentLine ∧ ("C\n".toList) ≠ [])
    ∧ (∀ l ∈ ["D\n".toList], l ≠ blankCommentLine ∧ l ≠ [])
    ∧ removeTripleBlankLine
        (["A\n".toList] ++ blankCommentLine :: blankCommentLine :: blankCommentLine ::
          ("B\n".toList) :: ("C\n".toList) :: ["D\n".toList])
      = ["A\n".toList] ++ blankCommentLine ::
          ("B\n".toList) :: ("C\n".toList) :: ["D\n".toList] :=
  ⟨by decide, by decide, by decide, by decide,
    c2_exact3_collapse_amended ["A\n".toList] ["D\n".toList]
      ("B\n".toList) ("C\n".toList)
      (by decide) (by decide) (by decide) (by decide)⟩

/-- C3 counterexample: for a run of exactly 6 consecutive `" *\n"` lines
surrounded by sentinels, the first pass leaves 4 consecutive `" *\n"`
lines, which the second pass collapses further — the collapser is not
stable on its own output there, contradicting the claim's "in particular"
list. -/
theorem c3_counterexample :
    removeTripleBlankLine (removeTripleBlankLine
        (("X\n".toList) :: blankCommentLine :: blankCommentLine :: blankCommentLine ::
          blankCommentLine :: blankCommentLine :: blankCommentLine ::
          ("Y\n".toList) :: [("Z\n".toList)]))
      ≠ removeTripleBlankLine
          (("X\n".toList) :: blankCommentLine :: blankCommentLine :: blankCommentLine ::
            blankCommentLine :: blankCommentLine :: blankCommentLine ::
            ("Y\n".toList) :: [("Z\n".toList)]) := by
  decide

/-- C3 (amended).  A second run of the collapser changes nothing whenever
the first run's output contains no three consecutive `" *\n"` lines (so
in particular for runs of exactly 3 and 4 matching lines followed by at
least two sentinel lines, but not for runs of 6, whose first pass leaves
4 consecutive matching lines). -/
theorem c3_idempotence_amended (input : List Line)
    (h : hasTriple (removeTripleBlankLine input) = false) :
    removeTripleBlankLine (removeTripleBlankLine input)
      = removeTripleBlankLine input := by
  have hne : ∀ l ∈ removeTripleBlankLine input, l ≠ [] := by
    intro l hl
    rw [removeTripleBlankLine_eq] at hl
    exact collapseStream_out_ne_nil input 0 l hl
  rw [removeTripleBlankLine_eq (removeTripleBlankLine input)]
  exact collapseStream_id _ h hne

/-- C3 witness: a run of exactly 4 matching lines is second-pass stable. -/
theorem c3_idempotence_witness :
    hasTriple (removeTripleBlankLine
        (("X\n".toList) :: blankCommentLine :: blankCommentLine :: blankCommentLine ::
          blankCommentLine :: ("Y\n".toList) :: [("Z\n".toList)])) = false
    ∧ removeTripleBlankLine (removeTripleBlankLine
        (("X\n".toList) :: blankCommentLine :: blankCommentLine :: blankCommentLine ::
          blankCommentLine :: ("Y\n".toList) :: [("Z\n".toList)]))
      = removeTripleBlankLine
          (("X\n".toList) :: blankCommentLine :: blankCommentLine :: blankCommentLine ::
            blankCommentLine :: ("Y\n".toList) :: [("Z\n".toList)]) :=
  ⟨by decide,
    c3_idempotence_amended
      (("X\n".toList) :: blankCommentLine :: blankCommentLine :: blankCommentLine ::
        blankCommentLine :: ("Y\n".toList) :: [("Z\n".toList)])
      (by decide)⟩

/-- C6.  No false positives: an input file (of nonempty lines) with no
three consecutive `" *\n"` lines is reproduced unchanged. -/
theorem c6_no_false_positives (input : List Line)
    (ht : hasTriple input = false) (hne : ∀ l ∈ input, l ≠ []) :
    removeTripleBlankLine input = input := by
  rw [removeTripleBlankLine_eq]
  exact collapseStream_id input ht hne

/-- C6 witness: a pair of `" *\n"` lines is left alone. -/
theorem c6_no_false_positives_witness :
    hasTriple (("X\n".toList) :: blankCommentLine :: blankCommentLine ::
        [("Y\n".toList)]) = false
    ∧ (∀ l ∈ ("X\n".toList) :: blankCommentLine :: blankCommentLine ::
        [("Y\n".toList)], l ≠ [])
    ∧ removeTripleBlankLine
        (("X\n".toList) :: blankCommentLine :: blankCommentLine :: [("Y\n".toList)])
      = ("X\n".toList) :: blankCommentLine :: blankCommentLine :: [("Y\n".toList)] :=
  ⟨by decide, by decide,
    c6_no_false_positives
      (("X\n".toList) :: blankCommentLine :: blankCommentLine :: [("Y\n".toList)])
      (by decide) (by decide)⟩

/-- C9.  A triple of `" *\n"` lines at end of file is not collapsed: the
output still ends with all three of them, because the final window is the
matched triple (whose branch writes the oldest slot regardless of the
skip counter) and the end-of-input flush writes the last two slots
unconditionally. -/
theorem c9_end_of_file_triple (xs : List Line) :
    ∃ ys,
      removeTripleBlankLine
          (xs ++ [blankCommentLine, blankCommentLine, blankCommentLine])
        = ys ++ [blankCommentLine, blankCommentLine, blankCommentLine] := by
  rw [removeTripleBlankLine_eq]
  exact collapseStream_ends_bbb xs 0

/-! ### The `main` drivers: temporary file, move, and argument access

Both `main` functions run their transformation with the fixed output path
`temp.txt` and then dispatch `mv temp.txt <target>`.  The surrounding file
system is modelled as a partial map from file names to file contents; an
`open` of a missing file is the uncaught I/O error that kills the process
before anything has been written. -/

/-- A file system: each file name maps to its content, if the file exists. -/
def FileSys : Type := Line → Option (List Line)

/-- Creating/overwriting (or with `none`, removing) one file. -/
def fsWrite (fs : FileSys) (name : Line) (content : Option (List Line)) : FileSys :=
  fun n => if n = name then content else fs n

/-- The fixed temporary file name `temp.txt` shared by both scripts. -/
def tempFileName : Line := "temp.txt".toList

/-- The transformation phase of `UpdateCopyrightNotice.main`: open the
licence file and the target file for reading (in the source's order; a
missing file is an uncaught error, modelled as `none`, and the process
dies before writing anything), then write the transformed content — the
only write of the whole phase — to `temp.txt`. -/
def replacerTransform (fs : FileSys) (target licence : Line) : Option FileSys :=
  match fs licence, fs target with
  | some licLines, some inLines =>
    some (fsWrite fs tempFileName (some (removeCopyrightNotice inLines licLines)))
  | _, _ => none

/-- The `os.system('mv temp.txt <target>')` step: the target receives the
temporary file's content and the temporary file disappears. -/
def moveTempOver (fs : FileSys) (target : Line) : FileSys :=
  match fs tempFileName with
  | some content => fsWrite (fsWrite fs tempFileName none) target (some content)
  | none => fs

/-- `UpdateCopyrightNotice.main` on an already-parsed pair of file names. -/
def replacerRun (fs : FileSys) (target licence : Line) : FileSys :=
  match replacerTransform fs target licence with
  | some fs1 => moveTempOver fs1 target
  | none => fs

/-- The transformation phase of `RemoveTripleBlankCommentLines.main`. -/
def collapserTransform (fs : FileSys) (target : Line) : Option FileSys :=
  match fs target with
  | some inLines => some (fsWrite fs tempFileName (some (removeTripleBlankLine inLines)))
  | none => none

/-- `RemoveTripleBlankCommentLines.main` on an already-parsed file name. -/
def collapserRun (fs : FileSys) (target : Line) : FileSys :=
  match collapserTransform fs target with
  | some fs1 => moveTempOver fs1 target
  | none => fs

/-- `UpdateCopyrightNotice.main` including the `sys.argv[1]`/`sys.argv[2]`
accesses, which Python evaluates before any file is opened: with too few
arguments the run ends in an uncaught `IndexError` (flag `false`) with the
file system untouched. -/
def replacerToolMain (argv : List Line) (fs : FileSys) : Bool × FileSys :=
  match argv[1]?, argv[2]? with
  | some target, some licence => (true, replacerRun fs target licence)
  | _, _ => (false, fs)

/-- `RemoveTripleBlankCommentLines.main` including the `sys.argv[1]`
access. -/
def collapserToolMain (argv : List Line) (fs : FileSys) : Bool × FileSys :=
  match argv[1]? with
  | some target => (true, collapserRun fs target)
  | none => (false, fs)

/-- C7.  Atomicity on failure, for both tools: as long as the target file
is not itself named `temp.txt`, (a) no write of the transformation phase —
which only ever writes `temp.txt`, with whatever content — changes the
target; (b) after the transformation phase, whether it succeeded or died,
the target's content is still the original; and (c) when an open fails,
the whole run leaves the file system exactly as it was, so only the final
move ever changes the target. -/
theorem c7_atomicity (fs : FileSys) (target licence : Line)
    (content : Option (List Line)) (ht : target ≠ tempFileName) :
    fsWrite fs tempFileName content target = fs target
    ∧ ((replacerTransform fs target licence).getD fs) target = fs target
    ∧ (replacerTransform fs target licence = none → replacerRun fs target licence = fs)
    ∧ ((collapserTransform fs target).getD fs) target = fs target
    ∧ (collapserTransform fs target = none → collapserRun fs target = fs) := by
  refine ⟨by simp [fsWrite, ht], ?_, ?_, ?_, ?_⟩
  · rcases h1 : fs licence with _ | licL <;> rcases h2 : fs target with _ | inL <;>
      simp [replacerTransform, h1, h2, fsWrite, ht]
  · intro h; simp [replacerRun, h]
  · rcases h2 : fs target with _ | inL <;>
      simp [collapserTransform, h2, fsWrite, ht]
  · intro h; simp [collapserRun, h]

/-- C7 witness: a concrete two-file file system. -/
theorem c7_atomicity_witness :
    ("a.c".toList) ≠ tempFileName
    ∧ (fsWrite
        (fun n => if n = ("a.c".toList) then some [("x\n".toList)]
          else if n = ("lic.txt".toList) then some [("L\n".toList)] else none)
        tempFileName (some [("y\n".toList)]) ("a.c".toList)
      = (fun n => if n = ("a.c".toList) then some [("x\n".toList)]
          else if n = ("lic.txt".toList) then some [("L\n".toList)] else none)
          ("a.c".toList)
    ∧ ((replacerTransform
        (fun n => if n = ("a.c".toList) then some [("x\n".toList)]
          else if n = ("lic.txt".toList) then some [("L\n".toList)] else none)
        ("a.c".toList) ("lic.txt".toList)).getD
        (fun n => if n = ("a.c".toList) then some [("x\n".toList)]
          else if n = ("lic.txt".toList) then some [("L\n".toList)] else none))
        ("a.c".toList)
      = (fun n => if n = ("a.c".toList) then some [("x\n".toList)]
          else if n = ("lic.txt".toList) then some [("L\n".toList)] else none)
          ("a.c".toList)
    ∧ (replacerTransform
        (fun n => if n = ("a.c".toList) then some [("x\n".toList)]
          else if n = ("lic.txt".toList) then some [("L\n".toList)] else none)
        ("a.c".toList) ("lic.txt".toList) = none →
        replacerRun
          (fun n => if n = ("a.c".toList) then some [("x\n".toList)]
            else if n = ("lic.txt".toList) then some [("L\n".toList)] else none)
          ("a.c".toList) ("lic.txt".toList)
        = (fun n => if n = ("a.c".toList) then some [("x\n".toList)]
            else if n = ("lic.txt".toList) then some [("L\n".toList)] else none))
    ∧ ((collapserTransform
        (fun n => if n = ("a.c".toList) then some [("x\n".toList)]
          else if n = ("lic.txt".toList) then some [("L\n".toList)] else none)
        ("a.c".toList)).getD
        (fun n => if n = ("a.c".toList) then some [("x\n".toList)]
          else if n = ("lic.txt".toList) then some [("L\n".toList)] else none))
        ("a.c".toList)
      = (fun n => if n = ("a.c".toList) then some [("x\n".toList)]
          else if n = ("lic.txt".toList) then some [("L\n".toList)] else none)
          ("a.c".toList)
    ∧ (collapserTransform
        (fun n => if n = ("a.c".toList) then some [("x\n".toList)]
          else if n = ("lic.txt".toList) then some [("L\n".toList)] else none)
        ("a.c".toList) = none →
        collapserRun
          (fun n => if n = ("a.c".toList) then some [("x\n".toList)]
            else if n = ("lic.txt".toList) then some [("L\n".toList)] else none)
          ("a.c".toList)
        = (fun n => if n = ("a.c".toList) then some [("x\n".toList)]
            else if n = ("lic.txt".toList) then some [("L\n".toList)] else none))) :=
  ⟨by decide,
    c7_atomicity
      (fun n => if n = ("a.c".toList) then some [("x\n".toList)]
        else if n = ("lic.txt".toList) then some [("L\n".toList)] else none)
      ("a.c".toList) ("lic.txt".toList) (some [("y\n".toList)]) (by decide)⟩

/-- C8.  Missing arguments: with fewer than two user arguments the Notice
Replacer, and with fewer than one the Collapser, dies on the argument
access itself (Python evaluates `sys.argv[i]` before opening any file),
leaving the file system — target file and temporary file alike —
untouched. -/
theorem c8_missing_arguments (prog : Line) (rest : List Line) (fs : FileSys) :
    (rest.length < 2 → replacerToolMain (prog :: rest) fs = (false, fs))
    ∧ (rest.length < 1 → collapserToolMain (prog :: rest) fs = (false, fs)) := by
  constructor
  · intro h
    rcases rest with _ | ⟨a, rest2⟩
    · rfl
    · rcases rest2 with _ | ⟨b, rest3⟩
      · rfl
      · simp at h
        omega
  · intro h
    rcases rest with _ | ⟨a, rest2⟩
    · rfl
    · simp at h

/-- C8 witness: invoking both tools with no user argument at all. -/
theorem c8_missing_arguments_witness :
    (([] : List Line).length < 2)
    ∧ (([] : List Line).length < 1)
    ∧ replacerToolMain [("prog".toList)] (fun _ => none)
      = (false, fun _ => none)
    ∧ collapserToolMain [("prog".toList)] (fun _ => none)
      = (false, fun _ => none) :=
  ⟨by decide, by decide,
    (c8_missing_arguments ("prog".toList) [] (fun _ => none)).1 (by decide),
    (c8_missing_arguments ("prog".toList) [] (fun _ => none)).2 (by decide)⟩

end FwProfileScripts
